import Mathlib

/-!
# Verification of `egui_dock`'s `style.rs`

A shallow embedding of the split-resolver (`Style::hsplit`, `Style::vsplit`)
and the tab-header renderer/hit-tester (`Style::tab_title`) from
`src/style.rs`, together with theorems about the spec's testable properties.

Modelling conventions:
* `f32` values are modelled as exact rationals (`ℚ`); `f32::round`
  (round half away from zero) becomes `f32roundQ`.
* The external immediate-mode UI surface (egui) is abstracted to its
  observable inputs: the device pixel ratio, this frame's drag delta,
  hover/click state of the registered regions, and the allocated header
  rectangle.  Geometry helpers of `egui::Rect` used by the source are
  embedded with their egui semantics.
* The painter is modelled as the ordered list of draw commands emitted.
-/

namespace EguiDock

/-- `egui::Color32`: an 8-bit RGBA color.  Only its identity matters here. -/
structure Color32 where
  r : ℕ
  g : ℕ
  b : ℕ
  a : ℕ
deriving DecidableEq, Repr

/-- `egui::Rounding`: per-corner rounding radii. -/
structure Rounding where
  nw : ℚ
  ne : ℚ
  sw : ℚ
  se : ℚ
deriving DecidableEq, Repr

/-- `egui::Rounding::same(r)`. -/
def Rounding.same (v : ℚ) : Rounding := ⟨v, v, v, v⟩

/-- `egui::style::Margin`. -/
structure Margin where
  left : ℚ
  right : ℚ
  top : ℚ
  bottom : ℚ
deriving DecidableEq, Repr

/-- `egui::Stroke`: line width and color. -/
structure Stroke where
  width : ℚ
  color : Color32
deriving DecidableEq, Repr

/-- `egui::Pos2`. -/
structure Pos where
  x : ℚ
  y : ℚ
deriving DecidableEq, Repr

/-- `egui::Vec2`. -/
structure Vec2 where
  x : ℚ
  y : ℚ
deriving DecidableEq, Repr

/-- `egui::Rect`: an axis-aligned rectangle given by its min and max corners. -/
structure Rect where
  min : Pos
  max : Pos
deriving DecidableEq, Repr

namespace Rect

/-- `Rect::width`. -/
def width (r : Rect) : ℚ := r.max.x - r.min.x

/-- `Rect::height`. -/
def height (r : Rect) : ℚ := r.max.y - r.min.y

/-- `Rect::size`. -/
def size (r : Rect) : Vec2 := ⟨r.width, r.height⟩

/-- `Rect::left_top`. -/
def left_top (r : Rect) : Pos := r.min

/-- `Rect::right_bottom`. -/
def right_bottom (r : Rect) : Pos := r.max

/-- `Rect::right_top`. -/
def right_top (r : Rect) : Pos := ⟨r.max.x, r.min.y⟩

/-- `Rect::left_bottom`. -/
def left_bottom (r : Rect) : Pos := ⟨r.min.x, r.max.y⟩

/-- `Rect::from_center_size`. -/
def from_center_size (c : Pos) (s : Vec2) : Rect :=
  ⟨⟨c.x - s.x / 2, c.y - s.y / 2⟩, ⟨c.x + s.x / 2, c.y + s.y / 2⟩⟩

/-- `Rect::shrink2`. -/
def shrink2 (r : Rect) (v : Vec2) : Rect :=
  ⟨⟨r.min.x + v.x, r.min.y + v.y⟩, ⟨r.max.x - v.x, r.max.y - v.y⟩⟩

/-- `Rect::shrink`. -/
def shrink (r : Rect) (a : ℚ) : Rect := r.shrink2 ⟨a, a⟩

/-- `Rect::intersect`: componentwise max of the mins, min of the maxes. -/
def intersect (a b : Rect) : Rect :=
  ⟨⟨Max.max a.min.x b.min.x, Max.max a.min.y b.min.y⟩,
   ⟨Min.min a.max.x b.max.x, Min.min a.max.y b.max.y⟩⟩

/-- `rect.intersect(Rect::everything_right_of(x))` from the source.
`everything_right_of` is the half-plane `{p | x ≤ p.x}` written in egui as a
rect with infinite bounds elsewhere; those infinite bounds are identities of
`intersect` and are absorbed here since `ℚ` has no infinities. -/
def intersectRightOf (r : Rect) (x : ℚ) : Rect :=
  ⟨⟨Max.max r.min.x x, r.min.y⟩, r.max⟩

/-- `rect.intersect(Rect::everything_left_of(x))`, infinite bounds absorbed. -/
def intersectLeftOf (r : Rect) (x : ℚ) : Rect :=
  ⟨r.min, ⟨Min.min r.max.x x, r.max.y⟩⟩

/-- `rect.intersect(Rect::everything_above(y))`, infinite bounds absorbed. -/
def intersectAbove (r : Rect) (y : ℚ) : Rect :=
  ⟨r.min, ⟨r.max.x, Min.min r.max.y y⟩⟩

/-- `rect.intersect(Rect::everything_below(y))`, infinite bounds absorbed. -/
def intersectBelow (r : Rect) (y : ℚ) : Rect :=
  ⟨⟨r.min.x, Max.max r.min.y y⟩, r.max⟩

/-- Closed membership of a point in a rectangle (egui `Rect::contains`). -/
def containsP (r : Rect) (p : Pos) : Prop :=
  r.min.x ≤ p.x ∧ p.x ≤ r.max.x ∧ r.min.y ≤ p.y ∧ p.y ≤ r.max.y

instance (r : Rect) (p : Pos) : Decidable (r.containsP p) := by
  unfold containsP; infer_instance

/-- Membership in the interior of a rectangle. -/
def interiorP (r : Rect) (p : Pos) : Prop :=
  r.min.x < p.x ∧ p.x < r.max.x ∧ r.min.y < p.y ∧ p.y < r.max.y

instance (r : Rect) (p : Pos) : Decidable (r.interiorP p) := by
  unfold interiorP; infer_instance

/-- Transposition (swap x and y): the mirror map relating `hsplit` and
`vsplit` in the spec's symmetry property. -/
def transpose (r : Rect) : Rect :=
  ⟨⟨r.min.y, r.min.x⟩, ⟨r.max.y, r.max.x⟩⟩

end Rect

/-- `f32::round`: round half away from zero, as an integer-valued map on `ℚ`. -/
def f32round (x : ℚ) : ℤ :=
  if 0 ≤ x then ⌊x + 1 / 2⌋ else -⌊-x + 1 / 2⌋

/-- `f32::round` as `ℚ → ℚ`, the shape the source passes to `map_to_pixel`. -/
def f32roundQ (x : ℚ) : ℚ := (f32round x : ℚ)

/-- Modelled from the spec: `map_to_pixel` lives in the crate's `utils`
module, which is not among the sources; §9 of the spec defines it as
`round(value * ratio) / ratio`, applied to separator edges, with the
rounding function passed in by the caller (`f32::round` at both call
sites). -/
def map_to_pixel (value ppp : ℚ) (rounding : ℚ → ℚ) : ℚ :=
  rounding (value * ppp) / ppp

/-- `f32::clamp(self, min, max)`: `min` if below, `max` if above, else self. -/
def clampQ (x lo hi : ℚ) : ℚ :=
  if x < lo then lo else if hi < x then hi else x

/-- The `Style` struct of `style.rs` (all fields, colors opaque). -/
structure Style where
  padding : Option Margin
  border_color : Color32
  border_width : ℚ
  selection_color : Color32
  separator_width : ℚ
  separator_extra : ℚ
  separator_color : Color32
  tab_bar_background_color : Color32
  tab_outline_color : Color32
  tab_rounding : Rounding
  tab_background_color : Color32
  tab_text_color_unfocused : Color32
  tab_text_color_focused : Color32
  close_tab_color : Color32
  close_tab_active_color : Color32
  close_tab_background_color : Color32
  show_close_buttons : Bool
deriving DecidableEq, Repr

/-- The clamp-bound computation shared verbatim by `hsplit`
(style.rs lines 115–117) and `vsplit` (lines 156–158):
`min = (separator_extra / range).min(1.0)`, `max = 1.0 - min`,
then `(min.min(max), max.max(min))`. -/
def splitClampBounds (s : Style) (range : ℚ) : ℚ × ℚ :=
  let mn := min (s.separator_extra / range) 1
  let mx := 1 - mn
  (min mn mx, max mx mn)

/-- Result of a split resolution: the updated fraction and the three
regions returned by `hsplit`/`vsplit`, in the source's tuple order. -/
structure SplitResult where
  fraction : ℚ
  first : Rect
  separator : Rect
  second : Rect
deriving DecidableEq, Repr

/-- `Style::hsplit` (style.rs lines 99–138).  The egui interaction is
abstracted to its observables: `ppp` is `ui.ctx().pixels_per_point()` and
`dragDelta` is `response.drag_delta().x` of the registered separator
region. -/
def Style.hsplit (s : Style) (ppp dragDelta fraction : ℚ) (rect : Rect) :
    SplitResult :=
  let midpoint := rect.min.x + rect.width * fraction
  let separator : Rect :=
    ⟨⟨midpoint - s.separator_width * 0.5, rect.min.y⟩,
     ⟨midpoint + s.separator_width * 0.5, rect.max.y⟩⟩
  let delta := dragDelta
  let range := rect.max.x - rect.min.x
  let b := splitClampBounds s range
  let fraction := clampQ (fraction + delta / range) b.1 b.2
  let midpoint := rect.min.x + rect.width * fraction
  let separator : Rect :=
    ⟨⟨map_to_pixel (midpoint - s.separator_width * 0.5) ppp f32roundQ,
      separator.min.y⟩,
     ⟨map_to_pixel (midpoint + s.separator_width * 0.5) ppp f32roundQ,
      separator.max.y⟩⟩
  ⟨fraction,
   rect.intersectRightOf separator.max.x,
   separator,
   rect.intersectLeftOf separator.min.x⟩

/-- `Style::vsplit` (style.rs lines 140–179), the y-axis mirror image of
`hsplit`; `dragDelta` is `response.drag_delta().y`. -/
def Style.vsplit (s : Style) (ppp dragDelta fraction : ℚ) (rect : Rect) :
    SplitResult :=
  let midpoint := rect.min.y + rect.height * fraction
  let separator : Rect :=
    ⟨⟨rect.min.x, midpoint - s.separator_width * 0.5⟩,
     ⟨rect.max.x, midpoint + s.separator_width * 0.5⟩⟩
  let delta := dragDelta
  let range := rect.max.y - rect.min.y
  let b := splitClampBounds s range
  let fraction := clampQ (fraction + delta / range) b.1 b.2
  let midpoint := rect.min.y + rect.height * fraction
  let separator : Rect :=
    ⟨⟨separator.min.x,
      map_to_pixel (midpoint - s.separator_width * 0.5) ppp f32roundQ⟩,
     ⟨separator.max.x,
      map_to_pixel (midpoint + s.separator_width * 0.5) ppp f32roundQ⟩⟩
  ⟨fraction,
   rect.intersectAbove separator.min.y,
   separator,
   rect.intersectBelow separator.max.y⟩

/-- The shaped label text: the result of
`label.into_galley(ui, None, f32::INFINITY, TextStyle::Button)`.  Text
shaping belongs to the external toolkit, so the galley is an input: its
rendered size and whether the label carries an explicit color. -/
structure Galley where
  sizeX : ℚ
  sizeY : ℚ
  galley_has_color : Bool
deriving DecidableEq, Repr

/-- The per-frame observables `tab_title` reads from the external UI
surface: the device pixel ratio, the rectangle handed back by
`allocate_at_least`, the hover state of the header response, and the
hover / click / pointer-down state that `ui.interact` would report for
the close-button region (read only when that region is registered). -/
structure TabUi where
  pixels_per_point : ℚ
  allocRect : Rect
  hovered : Bool
  x_hovered : Bool
  x_clicked : Bool
  x_pointer_down : Bool
deriving DecidableEq, Repr

/-- A painter call issued by `tab_title`, in source order. -/
inductive DrawCmd where
  | rect_filled (r : Rect) (rounding : Rounding) (c : Color32)
  | rect_stroke (r : Rect) (rounding : Rounding) (s : Stroke)
  | line_segment (a b : Pos) (s : Stroke)
  | text (pos : Pos) (override_text_color : Option Color32)
deriving DecidableEq, Repr

/-- Result of `tab_title`: the desired header size it computed, the
close-button region it registered (`none` mirrors the source's
`(Rect::NOTHING, None)` arm — the rect is never read in that case), the
painter calls in order, the override text color, and the returned
`(close_hovered, close_clicked)` booleans.  The header `Response` itself
is the external surface's object and carries no further information here
beyond `ui.hovered`. -/
structure TabTitleResult where
  desired_size : Vec2
  x_region : Option Rect
  paint : List DrawCmd
  override_text_color : Option Color32
  close_hovered : Bool
  close_clicked : Bool
deriving DecidableEq, Repr

/-- `Style::tab_title` (style.rs lines 182–294). -/
def Style.tab_title (s : Style) (ui : TabUi) (galley : Galley)
    (focused active is_being_dragged : Bool) : TabTitleResult :=
  let px := (ui.pixels_per_point)⁻¹
  let rounding := s.tab_rounding
  let x_text_gap : ℚ := 5.0
  let x_size : Vec2 := ⟨galley.sizeY / 1.3, galley.sizeY / 1.3⟩
  let offset : Vec2 := ⟨8.0, 0.0⟩
  let text_size : Vec2 := ⟨galley.sizeX, galley.sizeY⟩
  -- desired_size = text_size + offset * 2.0; if show_close_buttons
  -- { desired_size.x += x_size.x + x_text_gap }; desired_size.y = 24.0
  let desired0 : Vec2 :=
    ⟨text_size.x + offset.x * 2.0, text_size.y + offset.y * 2.0⟩
  let desired1 : Vec2 :=
    if s.show_close_buttons then ⟨desired0.x + x_size.x + x_text_gap, desired0.y⟩
    else desired0
  let desired_size : Vec2 := ⟨desired1.x, 24.0⟩
  let rect := ui.allocRect
  let x_region : Option Rect :=
    if (active || ui.hovered) && s.show_close_buttons then
      let pos : Pos :=
        ⟨rect.left_top.x + (offset.x + text_size.x + x_text_gap + x_size.x / 2.0),
         rect.left_top.y + rect.size.y / 2.0⟩
      some (Rect.from_center_size pos x_size)
    else none
  let bodyCmds : List DrawCmd :=
    match active, is_being_dragged with
    | true, false =>
      [.rect_filled ⟨⟨rect.min.x - px, rect.min.y⟩, ⟨rect.max.x + px, rect.max.y⟩⟩
         rounding s.tab_outline_color,
       .rect_filled ⟨⟨rect.min.x, rect.min.y + px⟩, ⟨rect.max.x, rect.max.y⟩⟩
         rounding s.tab_background_color]
    | true, true =>
      [.rect_stroke rect s.tab_rounding ⟨1.0, s.tab_outline_color⟩]
    | _, _ => []
  -- Align2::LEFT_TOP.anchor_rect(r).min = r.min
  let pos : Pos := (rect.shrink2 ⟨8.0, 5.0⟩).min
  let override_text_color : Option Color32 :=
    if galley.galley_has_color then none
    else if focused then some s.tab_text_color_focused
    else some s.tab_text_color_unfocused
  let textCmd : DrawCmd := .text pos override_text_color
  -- the close-button drawing block re-tests the registration condition
  -- `(active || response.hovered()) && show_close_buttons` and unwraps
  -- `x_res`; both are equivalent to matching on the registered region.
  let closeCmds : List DrawCmd :=
    match x_region with
    | some x_rect =>
      (if ui.x_hovered then
        [DrawCmd.rect_filled x_rect (Rounding.same 2.0) s.close_tab_background_color]
       else []) ++
      (let xr := x_rect.shrink 1.75
       let color :=
         if focused || ui.x_pointer_down then s.close_tab_active_color
         else s.close_tab_color
       [DrawCmd.line_segment xr.left_top xr.right_bottom ⟨1.0, color⟩,
        DrawCmd.line_segment xr.right_top xr.left_bottom ⟨1.0, color⟩])
    | none => []
  let out : Bool × Bool :=
    match x_region with
    | some _ => (ui.x_hovered, ui.x_clicked)
    | none => (false, false)
  ⟨desired_size, x_region, bodyCmds ++ [textCmd] ++ closeCmds,
   override_text_color, out.1, out.2⟩

/-- Replace the `show_close_buttons` flag, keeping every other field
(used to compare the two settings on otherwise identical styles). -/
def setShowCloseButtons (s : Style) (b : Bool) : Style :=
  ⟨s.padding, s.border_color, s.border_width, s.selection_color,
   s.separator_width, s.separator_extra, s.separator_color,
   s.tab_bar_background_color, s.tab_outline_color, s.tab_rounding,
   s.tab_background_color, s.tab_text_color_unfocused,
   s.tab_text_color_focused, s.close_tab_color, s.close_tab_active_color,
   s.close_tab_background_color, b⟩

/-- A concrete style with the default geometry of `Style::default`
(`separator_width = 1`, `separator_extra = 175`, close buttons shown);
color fields are arbitrary concrete values (they carry no weight). -/
def scenarioStyle : Style :=
  ⟨none, ⟨0, 0, 0, 255⟩, 0, ⟨0, 191, 255, 128⟩, 1, 175, ⟨0, 0, 0, 255⟩,
   ⟨255, 255, 255, 255⟩, ⟨0, 0, 0, 255⟩, ⟨0, 0, 0, 0⟩, ⟨255, 255, 255, 255⟩,
   ⟨96, 96, 96, 255⟩, ⟨0, 0, 0, 255⟩, ⟨255, 255, 255, 255⟩,
   ⟨255, 255, 255, 255⟩, ⟨160, 160, 160, 255⟩, true⟩

/-- A concrete style with `separator_width = 1`, `separator_extra = 0`. -/
def styleNoExtra : Style := setShowCloseButtons
  ⟨none, ⟨0, 0, 0, 255⟩, 0, ⟨0, 191, 255, 128⟩, 1, 0, ⟨0, 0, 0, 255⟩,
   ⟨255, 255, 255, 255⟩, ⟨0, 0, 0, 255⟩, ⟨0, 0, 0, 0⟩, ⟨255, 255, 255, 255⟩,
   ⟨96, 96, 96, 255⟩, ⟨0, 0, 0, 255⟩, ⟨255, 255, 255, 255⟩,
   ⟨255, 255, 255, 255⟩, ⟨160, 160, 160, 255⟩, true⟩ true

/-- A concrete style with `separator_width = 1`, `separator_extra = 1`. -/
def styleSmallExtra : Style := setShowCloseButtons
  ⟨none, ⟨0, 0, 0, 255⟩, 0, ⟨0, 191, 255, 128⟩, 1, 1, ⟨0, 0, 0, 255⟩,
   ⟨255, 255, 255, 255⟩, ⟨0, 0, 0, 255⟩, ⟨0, 0, 0, 0⟩, ⟨255, 255, 255, 255⟩,
   ⟨96, 96, 96, 255⟩, ⟨0, 0, 0, 255⟩, ⟨255, 255, 255, 255⟩,
   ⟨255, 255, 255, 255⟩, ⟨160, 160, 160, 255⟩, true⟩ true

/-- A concrete frame context for `tab_title`: device ratio 1, a header
rect allocated at `[(0,0),(10,24)]`, nothing hovered or clicked. -/
def sampleTabUi : TabUi := ⟨1, ⟨⟨0, 0⟩, ⟨10, 24⟩⟩, false, false, false, false⟩

/-- A concrete shaped label of size 20×13 with no explicit color. -/
def sampleGalley : Galley := ⟨20, 13, false⟩

/-! ## Helper lemmas -/

theorem f32roundQ_abs_le (x : ℚ) : |f32roundQ x - x| ≤ 1 / 2 := by
  unfold f32roundQ f32round
  split_ifs with h
  · have h1 : ((⌊x + 1 / 2⌋ : ℤ) : ℚ) ≤ x + 1 / 2 := Int.floor_le _
    have h2 : x + 1 / 2 < (⌊x + 1 / 2⌋ : ℤ) + 1 := Int.lt_floor_add_one _
    rw [abs_le]
    constructor <;> push_cast at h1 h2 ⊢ <;> linarith
  · have h1 : ((⌊-x + 1 / 2⌋ : ℤ) : ℚ) ≤ -x + 1 / 2 := Int.floor_le _
    have h2 : -x + 1 / 2 < (⌊-x + 1 / 2⌋ : ℤ) + 1 := Int.lt_floor_add_one _
    rw [abs_le]
    constructor <;> push_cast at h1 h2 ⊢ <;> linarith

theorem f32roundQ_mono {x y : ℚ} (h : x ≤ y) : f32roundQ x ≤ f32roundQ y := by
  unfold f32roundQ f32round
  split_ifs with hx hy hy
  · exact_mod_cast Int.floor_mono (by linarith)
  · exact absurd (le_trans hx h) hy
  · have h1 : (0 : ℤ) ≤ ⌊-x + 1 / 2⌋ := Int.floor_nonneg.mpr (by linarith)
    have h2 : (0 : ℤ) ≤ ⌊y + 1 / 2⌋ := Int.floor_nonneg.mpr (by linarith)
    exact_mod_cast (by omega : -⌊-x + 1 / 2⌋ ≤ ⌊y + 1 / 2⌋)
  · have := Int.floor_mono (show -y + 1 / 2 ≤ -x + 1 / 2 by linarith)
    exact_mod_cast (by omega : -⌊-x + 1 / 2⌋ ≤ -⌊-y + 1 / 2⌋)

theorem map_to_pixel_mono {v w ppp : ℚ} (hppp : 0 < ppp) (h : v ≤ w) :
    map_to_pixel v ppp f32roundQ ≤ map_to_pixel w ppp f32roundQ := by
  unfold map_to_pixel
  exact (div_le_div_right hppp).mpr
    (f32roundQ_mono (mul_le_mul_of_nonneg_right h hppp.le))

theorem map_to_pixel_abs_le {ppp : ℚ} (v : ℚ) (hppp : 0 < ppp) :
    |map_to_pixel v ppp f32roundQ - v| ≤ 1 / (2 * ppp) := by
  have hne : ppp ≠ 0 := ne_of_gt hppp
  have h := f32roundQ_abs_le (v * ppp)
  have e : map_to_pixel v ppp f32roundQ - v
      = (f32roundQ (v * ppp) - v * ppp) / ppp := by
    unfold map_to_pixel; field_simp; ring
  rw [e, abs_div, abs_of_pos hppp]
  have e2 : (1 : ℚ) / (2 * ppp) = (1 / 2) / ppp := by ring
  rw [e2]
  exact (div_le_div_right hppp).mpr h

theorem clampQ_mem {lo hi : ℚ} (x : ℚ) (h : lo ≤ hi) :
    lo ≤ clampQ x lo hi ∧ clampQ x lo hi ≤ hi := by
  unfold clampQ
  split_ifs <;> constructor <;> linarith

theorem clampQ_eq_self {x lo hi : ℚ} (h1 : lo ≤ x) (h2 : x ≤ hi) :
    clampQ x lo hi = x := by
  unfold clampQ
  split_ifs <;> linarith

theorem splitClampBounds_fst_le_snd (s : Style) (range : ℚ) :
    (splitClampBounds s range).1 ≤ (splitClampBounds s range).2 := by
  simp only [splitClampBounds]
  exact le_trans (min_le_left _ _) (le_max_right _ _)

theorem splitClampBounds_nonneg_le_one (s : Style) {range : ℚ}
    (he : 0 ≤ s.separator_extra) (hr : 0 < range) :
    0 ≤ (splitClampBounds s range).1 ∧ (splitClampBounds s range).2 ≤ 1 := by
  simp only [splitClampBounds]
  have h0 : 0 ≤ min (s.separator_extra / range) 1 :=
    le_min (div_nonneg he hr.le) zero_le_one
  have h1 : min (s.separator_extra / range) 1 ≤ 1 := min_le_right _ _
  exact ⟨le_min h0 (by linarith), max_le (by linarith) h1⟩

theorem hsplit_fraction_def (s : Style) (ppp d f : ℚ) (R : Rect) :
    (s.hsplit ppp d f R).fraction
      = clampQ (f + d / (R.max.x - R.min.x))
          (splitClampBounds s (R.max.x - R.min.x)).1
          (splitClampBounds s (R.max.x - R.min.x)).2 := rfl

theorem vsplit_fraction_def (s : Style) (ppp d f : ℚ) (R : Rect) :
    (s.vsplit ppp d f R).fraction
      = clampQ (f + d / (R.max.y - R.min.y))
          (splitClampBounds s (R.max.y - R.min.y)).1
          (splitClampBounds s (R.max.y - R.min.y)).2 := rfl

theorem clampQ_const (x lo : ℚ) : clampQ x lo lo = lo := by
  unfold clampQ
  split_ifs <;> linarith

theorem splitClampBounds_eq_half (s : Style) {range : ℚ} (h0 : 0 < range)
    (hr : range = 2 * s.separator_extra) :
    splitClampBounds s range = (1/2, 1/2) := by
  have hepos : 0 < s.separator_extra := by linarith
  have hdiv : s.separator_extra / range = 1/2 := by
    rw [hr, div_eq_iff (by linarith)]; ring
  simp [splitClampBounds, hdiv]
  norm_num


theorem hsplit_tiling_core (s : Style) (ppp d f : ℚ) (R : Rect)
    (hw : 0 ≤ s.separator_width) (hppp : 0 < ppp) :
    (∀ p : Pos, R.containsP p →
        (s.hsplit ppp d f R).first.containsP p
      ∨ (s.hsplit ppp d f R).separator.containsP p
      ∨ (s.hsplit ppp d f R).second.containsP p)
  ∧ (∀ p : Pos, ¬((s.hsplit ppp d f R).first.interiorP p
      ∧ (s.hsplit ppp d f R).separator.interiorP p))
  ∧ (∀ p : Pos, ¬((s.hsplit ppp d f R).separator.interiorP p
      ∧ (s.hsplit ppp d f R).second.interiorP p))
  ∧ (∀ p : Pos, ¬((s.hsplit ppp d f R).first.interiorP p
      ∧ (s.hsplit ppp d f R).second.interiorP p))
  ∧ |(s.hsplit ppp d f R).separator.width - s.separator_width| ≤ 1 / ppp := by
  have hne : ppp ≠ 0 := ne_of_gt hppp
  obtain ⟨mid, lo, hi, hlohi, hcl, hch, e1, e2, e3⟩ :
      ∃ mid lo hi : ℚ, lo ≤ hi
        ∧ |lo - (mid - s.separator_width * 0.5)| ≤ 1 / (2 * ppp)
        ∧ |hi - (mid + s.separator_width * 0.5)| ≤ 1 / (2 * ppp)
        ∧ (s.hsplit ppp d f R).first = ⟨⟨Max.max R.min.x hi, R.min.y⟩, R.max⟩
        ∧ (s.hsplit ppp d f R).separator = ⟨⟨lo, R.min.y⟩, ⟨hi, R.max.y⟩⟩
        ∧ (s.hsplit ppp d f R).second
            = ⟨R.min, ⟨Min.min R.max.x lo, R.max.y⟩⟩ := by
    refine ⟨R.min.x + R.width * (s.hsplit ppp d f R).fraction,
      map_to_pixel (R.min.x + R.width * (s.hsplit ppp d f R).fraction
        - s.separator_width * 0.5) ppp f32roundQ,
      map_to_pixel (R.min.x + R.width * (s.hsplit ppp d f R).fraction
        + s.separator_width * 0.5) ppp f32roundQ,
      map_to_pixel_mono hppp (by linarith),
      map_to_pixel_abs_le _ hppp, map_to_pixel_abs_le _ hppp, rfl, rfl, rfl⟩
  rw [e1, e2, e3]
  refine ⟨?_, ?_, ?_, ?_, ?_⟩
  · intro p hp
    simp only [Rect.containsP] at hp ⊢
    obtain ⟨hp1, hp2, hp3, hp4⟩ := hp
    rcases le_or_lt p.x lo with hc | hc
    · exact Or.inr (Or.inr ⟨hp1, le_min hp2 hc, hp3, hp4⟩)
    · rcases le_or_lt hi p.x with hc2 | hc2
      · exact Or.inl ⟨max_le hp1 hc2, hp2, hp3, hp4⟩
      · exact Or.inr (Or.inl ⟨hc.le, hc2.le, hp3, hp4⟩)
  · intro p hp
    simp only [Rect.interiorP] at hp
    have := le_max_right R.min.x hi
    obtain ⟨⟨ha, _, _, _⟩, ⟨_, hb, _, _⟩⟩ := hp
    linarith
  · intro p hp
    simp only [Rect.interiorP] at hp
    have := min_le_right R.max.x lo
    obtain ⟨⟨ha, _, _, _⟩, ⟨_, hb, _, _⟩⟩ := hp
    linarith
  · intro p hp
    simp only [Rect.interiorP] at hp
    have h1 := le_max_right R.min.x hi
    have h2 := min_le_right R.max.x lo
    obtain ⟨⟨ha, _, _, _⟩, ⟨_, hb, _, _⟩⟩ := hp
    linarith
  · simp only [Rect.width]
    have h2p : (2 : ℚ) * ppp ≠ 0 := by
      intro h
      rw [mul_eq_zero] at h
      rcases h with h | h
      · norm_num at h
      · exact hne h
    have key : (1 : ℚ) / (2 * ppp) + 1 / (2 * ppp) = 1 / ppp := by
      rw [div_add_div_same, div_eq_div_iff h2p hne]
      ring
    rw [abs_le] at hcl hch ⊢
    constructor <;> linarith

theorem vsplit_tiling_core (s : Style) (ppp d f : ℚ) (R : Rect)
    (hw : 0 ≤ s.separator_width) (hppp : 0 < ppp) :
    (∀ p : Pos, R.containsP p →
        (s.vsplit ppp d f R).first.containsP p
      ∨ (s.vsplit ppp d f R).separator.containsP p
      ∨ (s.vsplit ppp d f R).second.containsP p)
  ∧ (∀ p : Pos, ¬((s.vsplit ppp d f R).first.interiorP p
      ∧ (s.vsplit ppp d f R).separator.interiorP p))
  ∧ (∀ p : Pos, ¬((s.vsplit ppp d f R).separator.interiorP p
      ∧ (s.vsplit ppp d f R).second.interiorP p))
  ∧ (∀ p : Pos, ¬((s.vsplit ppp d f R).first.interiorP p
      ∧ (s.vsplit ppp d f R).second.interiorP p))
  ∧ |(s.vsplit ppp d f R).separator.height - s.separator_width| ≤ 1 / ppp := by
  have hne : ppp ≠ 0 := ne_of_gt hppp
  obtain ⟨mid, lo, hi, hlohi, hcl, hch, e1, e2, e3⟩ :
      ∃ mid lo hi : ℚ, lo ≤ hi
        ∧ |lo - (mid - s.separator_width * 0.5)| ≤ 1 / (2 * ppp)
        ∧ |hi - (mid + s.separator_width * 0.5)| ≤ 1 / (2 * ppp)
        ∧ (s.vsplit ppp d f R).first
            = ⟨R.min, ⟨R.max.x, Min.min R.max.y lo⟩⟩
        ∧ (s.vsplit ppp d f R).separator = ⟨⟨R.min.x, lo⟩, ⟨R.max.x, hi⟩⟩
        ∧ (s.vsplit ppp d f R).second
            = ⟨⟨R.min.x, Max.max R.min.y hi⟩, R.max⟩ := by
    refine ⟨R.min.y + R.height * (s.vsplit ppp d f R).fraction,
      map_to_pixel (R.min.y + R.height * (s.vsplit ppp d f R).fraction
        - s.separator_width * 0.5) ppp f32roundQ,
      map_to_pixel (R.min.y + R.height * (s.vsplit ppp d f R).fraction
        + s.separator_width * 0.5) ppp f32roundQ,
      map_to_pixel_mono hppp (by linarith),
      map_to_pixel_abs_le _ hppp, map_to_pixel_abs_le _ hppp, rfl, rfl, rfl⟩
  rw [e1, e2, e3]
  refine ⟨?_, ?_, ?_, ?_, ?_⟩
  · intro p hp
    simp only [Rect.containsP] at hp ⊢
    obtain ⟨hp1, hp2, hp3, hp4⟩ := hp
    rcases le_or_lt p.y lo with hc | hc
    · exact Or.inl ⟨hp1, hp2, hp3, le_min hp4 hc⟩
    · rcases le_or_lt hi p.y with hc2 | hc2
      · exact Or.inr (Or.inr ⟨hp1, hp2, max_le hp3 hc2, hp4⟩)
      · exact Or.inr (Or.inl ⟨hp1, hp2, hc.le, hc2.le⟩)
  · intro p hp
    simp only [Rect.interiorP] at hp
    have := min_le_right R.max.y lo
    obtain ⟨⟨_, _, _, ha⟩, ⟨_, _, hb, _⟩⟩ := hp
    linarith
  · intro p hp
    simp only [Rect.interiorP] at hp
    have := le_max_right R.min.y hi
    obtain ⟨⟨_, _, _, ha⟩, ⟨_, _, hb, _⟩⟩ := hp
    linarith
  · intro p hp
    simp only [Rect.interiorP] at hp
    have h1 := min_le_right R.max.y lo
    have h2 := le_max_right R.min.y hi
    obtain ⟨⟨_, _, _, ha⟩, ⟨_, _, hb, _⟩⟩ := hp
    linarith
  · simp only [Rect.height]
    have h2p : (2 : ℚ) * ppp ≠ 0 := by
      intro h
      rw [mul_eq_zero] at h
      rcases h with h | h
      · norm_num at h
      · exact hne h
    have key : (1 : ℚ) / (2 * ppp) + 1 / (2 * ppp) = 1 / ppp := by
      rw [div_add_div_same, div_eq_div_iff h2p hne]
      ring
    rw [abs_le] at hcl hch ⊢
    constructor <;> linarith

/-! ## Claim theorems -/

/-- C1 (counterexample): the mirror-symmetry claim fails componentwise.
With `separator_extra = 0`, `separator_width = 1`, device ratio 1, zero
drag, fraction 1/2 and rect `[(0,0),(4,1)]`, `hsplit`'s first region has
x-extent `[3,4]` while `vsplit` on the transposed rect gives a first
region with y-extent `[0,2]`: the x-extent of `hsplit`'s first region is
not the y-extent of `vsplit`'s first region. -/
theorem split_mirror_cex :
    ¬((styleNoExtra.hsplit 1 0 (1/2) ⟨⟨0, 0⟩, ⟨4, 1⟩⟩).first.min.x
        = (styleNoExtra.vsplit 1 0 (1/2)
            (Rect.transpose ⟨⟨0, 0⟩, ⟨4, 1⟩⟩)).first.min.y
      ∧ (styleNoExtra.hsplit 1 0 (1/2) ⟨⟨0, 0⟩, ⟨4, 1⟩⟩).first.max.x
        = (styleNoExtra.vsplit 1 0 (1/2)
            (Rect.transpose ⟨⟨0, 0⟩, ⟨4, 1⟩⟩)).first.max.y) := by
  norm_num [Style.hsplit, Style.vsplit, styleNoExtra, scenarioStyle, styleSmallExtra,
    setShowCloseButtons, splitClampBounds, clampQ, map_to_pixel, f32roundQ, f32round,
    Rect.width, Rect.height, Rect.transpose, Rect.intersectRightOf,
    Rect.intersectLeftOf, Rect.intersectAbove, Rect.intersectBelow,
    min_def, max_def]

/-- C1 (amended): `hsplit` and `vsplit` are mirror-symmetric up to
exchanging the first and second tuple components: resolving the
transposed rect vertically with the same fraction and drag yields the
same updated fraction, a separator that is the transpose of `hsplit`'s
separator, a first region that is the transpose of `hsplit`'s *second*
region, and a second region that is the transpose of `hsplit`'s *first*
region (`hsplit` lists the right-of-separator region first, `vsplit`
the top region first). -/
theorem split_mirror_amended (s : Style) (ppp d f : ℚ) (R : Rect) :
    (s.vsplit ppp d f R.transpose).fraction = (s.hsplit ppp d f R).fraction
  ∧ (s.vsplit ppp d f R.transpose).separator
      = (s.hsplit ppp d f R).separator.transpose
  ∧ (s.vsplit ppp d f R.transpose).first
      = (s.hsplit ppp d f R).second.transpose
  ∧ (s.vsplit ppp d f R.transpose).second
      = (s.hsplit ppp d f R).first.transpose :=
  ⟨rfl, rfl, rfl, rfl⟩

/-- C3: after `hsplit`/`vsplit` the fraction equals the input fraction
plus the drag delta divided by the rect's extent along the split axis,
clamped to the symmetrized bounds `min' = min(min, max)`,
`max' = max(max, min)` where `min = min(separator_extra / extent, 1)` and
`max = 1 - min`; in the spec's scenario (width 400, fraction 0.5,
`separator_extra` 175, drag +200) the result is exactly 0.5625, the upper
clamp bound, and not 1. -/
theorem split_fraction_update_formula :
    (∀ (s : Style) (ppp d f : ℚ) (R : Rect),
      (s.hsplit ppp d f R).fraction
        = clampQ (f + d / (R.max.x - R.min.x))
            (Min.min (min (s.separator_extra / (R.max.x - R.min.x)) 1)
              (1 - min (s.separator_extra / (R.max.x - R.min.x)) 1))
            (Max.max (1 - min (s.separator_extra / (R.max.x - R.min.x)) 1)
              (min (s.separator_extra / (R.max.x - R.min.x)) 1)))
  ∧ (∀ (s : Style) (ppp d f : ℚ) (R : Rect),
      (s.vsplit ppp d f R).fraction
        = clampQ (f + d / (R.max.y - R.min.y))
            (Min.min (min (s.separator_extra / (R.max.y - R.min.y)) 1)
              (1 - min (s.separator_extra / (R.max.y - R.min.y)) 1))
            (Max.max (1 - min (s.separator_extra / (R.max.y - R.min.y)) 1)
              (min (s.separator_extra / (R.max.y - R.min.y)) 1)))
  ∧ (scenarioStyle.hsplit 1 200 (1/2) ⟨⟨0, 0⟩, ⟨400, 100⟩⟩).fraction = 9/16
  ∧ (scenarioStyle.hsplit 1 200 (1/2) ⟨⟨0, 0⟩, ⟨400, 100⟩⟩).fraction
      = (splitClampBounds scenarioStyle 400).2
  ∧ (scenarioStyle.hsplit 1 200 (1/2) ⟨⟨0, 0⟩, ⟨400, 100⟩⟩).fraction ≠ 1 := by
  refine ⟨fun s ppp d f R => rfl, fun s ppp d f R => rfl, ?_, ?_, ?_⟩ <;>
    norm_num [Style.hsplit, Style.vsplit, styleNoExtra, scenarioStyle, styleSmallExtra,
    setShowCloseButtons, splitClampBounds, clampQ, map_to_pixel, f32roundQ, f32round,
    Rect.width, Rect.height, Rect.transpose, Rect.intersectRightOf,
    Rect.intersectLeftOf, Rect.intersectAbove, Rect.intersectBelow,
    min_def, max_def]

/-- C4 (counterexample): for extent 300 ≤ 2 × 175 the symmetrized clamp
bounds are (5/12, 7/12), not equal, and the resolved fraction is not
pinned: input fractions 0.45 and 0.5 (zero drag) resolve to different
values. -/
theorem split_clamp_degenerate_cex :
    (300 : ℚ) ≤ 2 * scenarioStyle.separator_extra
  ∧ (splitClampBounds scenarioStyle 300).1 ≠ (splitClampBounds scenarioStyle 300).2
  ∧ (scenarioStyle.hsplit 1 0 (45/100) ⟨⟨0, 0⟩, ⟨300, 50⟩⟩).fraction
      ≠ (scenarioStyle.hsplit 1 0 (1/2) ⟨⟨0, 0⟩, ⟨300, 50⟩⟩).fraction := by
  norm_num [Style.hsplit, Style.vsplit, styleNoExtra, scenarioStyle, styleSmallExtra,
    setShowCloseButtons, splitClampBounds, clampQ, map_to_pixel, f32roundQ, f32round,
    Rect.width, Rect.height, Rect.transpose, Rect.intersectRightOf,
    Rect.intersectLeftOf, Rect.intersectAbove, Rect.intersectBelow,
    min_def, max_def]

/-- C4 (amended): for positive extent ≤ 2 × separator_extra, the
symmetrized clamp bounds coincide exactly when the extent equals
2 × separator_extra; in that case the resolved fraction is pinned to 1/2
regardless of the input fraction and drag delta (for strictly smaller
extents the symmetrization swaps the bounds instead, leaving a
non-degenerate interval: see the counterexample). -/
theorem split_clamp_degenerate_amended (s : Style) (range : ℚ)
    (h0 : 0 < range) (_hle : range ≤ 2 * s.separator_extra) :
    ((splitClampBounds s range).1 = (splitClampBounds s range).2
        ↔ range = 2 * s.separator_extra)
  ∧ (∀ (R : Rect) (ppp d f : ℚ), R.max.x - R.min.x = range →
      range = 2 * s.separator_extra → (s.hsplit ppp d f R).fraction = 1/2)
  ∧ (∀ (R : Rect) (ppp d f : ℚ), R.max.y - R.min.y = range →
      range = 2 * s.separator_extra → (s.vsplit ppp d f R).fraction = 1/2) := by
  refine ⟨⟨?_, ?_⟩, ?_, ?_⟩
  · intro heq
    simp only [splitClampBounds] at heq
    set mn := min (s.separator_extra / range) 1 with hmn
    have a1 : mn ≤ Min.min mn (1 - mn) := by rw [heq]; exact le_max_right _ _
    have a2 : Min.min mn (1 - mn) ≤ mn := min_le_left _ _
    have a3 : 1 - mn ≤ Min.min mn (1 - mn) := by rw [heq]; exact le_max_left _ _
    have a4 : Min.min mn (1 - mn) ≤ 1 - mn := min_le_right _ _
    have hhalf : mn = 1/2 := by linarith
    have hdiv : s.separator_extra / range = 1/2 := by
      rcases le_or_lt (s.separator_extra / range) 1 with hc | hc
      · rw [hmn, min_eq_left hc] at hhalf; exact hhalf
      · rw [hmn, min_eq_right hc.le] at hhalf; norm_num at hhalf
    have := (div_eq_iff (ne_of_gt h0)).mp hdiv
    linarith
  · intro hr
    rw [splitClampBounds_eq_half s h0 hr]
  · intro R ppp d f hR hr
    rw [hsplit_fraction_def, hR, splitClampBounds_eq_half s h0 hr]
    exact clampQ_const _ _
  · intro R ppp d f hR hr
    rw [vsplit_fraction_def, hR, splitClampBounds_eq_half s h0 hr]
    exact clampQ_const _ _

/-- C4 witness: with `separator_extra = 175` and a rect of width exactly
350, the bounds coincide and the fraction is pinned to 1/2 from input
fraction 0 with drag delta 7. -/
theorem split_clamp_degenerate_amended_witness :
    (scenarioStyle.hsplit 1 7 0 ⟨⟨0, 0⟩, ⟨350, 10⟩⟩).fraction = 1/2 :=
  (split_clamp_degenerate_amended scenarioStyle 350 (by norm_num)
    (by norm_num [scenarioStyle])).2.1 ⟨⟨0, 0⟩, ⟨350, 10⟩⟩ 1 7 0
    (by norm_num) (by norm_num [scenarioStyle])

/-- C8: the once-resolved fraction is a fixed point of zero-drag
resolution — for any style, positive-extent rect, input fraction and
drag delta, feeding the fraction produced by `hsplit` (resp. `vsplit`)
back into a second `hsplit` (resp. `vsplit`) with zero drag delta leaves
it unchanged. -/
theorem split_zero_drag_idempotent (s : Style) (ppp ppp2 d f : ℚ) (R : Rect)
    (_hx : 0 < R.max.x - R.min.x) (_hy : 0 < R.max.y - R.min.y) :
    (s.hsplit ppp2 0 ((s.hsplit ppp d f R).fraction) R).fraction
        = (s.hsplit ppp d f R).fraction
  ∧ (s.vsplit ppp2 0 ((s.vsplit ppp d f R).fraction) R).fraction
        = (s.vsplit ppp d f R).fraction := by
  constructor
  · rw [hsplit_fraction_def s ppp2, hsplit_fraction_def s ppp]
    rw [zero_div, add_zero]
    have hb := splitClampBounds_fst_le_snd s (R.max.x - R.min.x)
    have hm := clampQ_mem (f + d / (R.max.x - R.min.x)) hb
    exact clampQ_eq_self hm.1 hm.2
  · rw [vsplit_fraction_def s ppp2, vsplit_fraction_def s ppp]
    rw [zero_div, add_zero]
    have hb := splitClampBounds_fst_le_snd s (R.max.y - R.min.y)
    have hm := clampQ_mem (f + d / (R.max.y - R.min.y)) hb
    exact clampQ_eq_self hm.1 hm.2

/-- C8 witness: concrete instance on the rect `[(0,0),(10,20)]` with
fraction 2 and drag 3. -/
theorem split_zero_drag_idempotent_witness :
    (styleSmallExtra.hsplit 1 0
        ((styleSmallExtra.hsplit 1 3 2 ⟨⟨0, 0⟩, ⟨10, 20⟩⟩).fraction)
        ⟨⟨0, 0⟩, ⟨10, 20⟩⟩).fraction
      = (styleSmallExtra.hsplit 1 3 2 ⟨⟨0, 0⟩, ⟨10, 20⟩⟩).fraction
  ∧ (styleSmallExtra.vsplit 1 0
        ((styleSmallExtra.vsplit 1 3 2 ⟨⟨0, 0⟩, ⟨10, 20⟩⟩).fraction)
        ⟨⟨0, 0⟩, ⟨10, 20⟩⟩).fraction
      = (styleSmallExtra.vsplit 1 3 2 ⟨⟨0, 0⟩, ⟨10, 20⟩⟩).fraction :=
  split_zero_drag_idempotent styleSmallExtra 1 1 3 2 ⟨⟨0, 0⟩, ⟨10, 20⟩⟩
    (by norm_num) (by norm_num)

/-- C10 (implicit): for a rect with positive extent along the split axis
and non-negative `separator_extra`, the symmetrized clamp bounds satisfy
`0 ≤ min' ≤ max' ≤ 1`, so the fraction coming out of `hsplit`/`vsplit`
lies in `[0,1]` whatever fraction (even outside `[0,1]`) and drag delta
went in. -/
theorem split_fraction_unit_interval (s : Style) (ppp d f : ℚ) (R : Rect)
    (he : 0 ≤ s.separator_extra)
    (hx : 0 < R.max.x - R.min.x) (hy : 0 < R.max.y - R.min.y) :
    (0 ≤ (splitClampBounds s (R.max.x - R.min.x)).1
      ∧ (splitClampBounds s (R.max.x - R.min.x)).1
          ≤ (splitClampBounds s (R.max.x - R.min.x)).2
      ∧ (splitClampBounds s (R.max.x - R.min.x)).2 ≤ 1)
  ∧ (0 ≤ (s.hsplit ppp d f R).fraction ∧ (s.hsplit ppp d f R).fraction ≤ 1)
  ∧ (0 ≤ (splitClampBounds s (R.max.y - R.min.y)).1
      ∧ (splitClampBounds s (R.max.y - R.min.y)).1
          ≤ (splitClampBounds s (R.max.y - R.min.y)).2
      ∧ (splitClampBounds s (R.max.y - R.min.y)).2 ≤ 1)
  ∧ (0 ≤ (s.vsplit ppp d f R).fraction ∧ (s.vsplit ppp d f R).fraction ≤ 1) := by
  have hxb := splitClampBounds_nonneg_le_one s he hx
  have hyb := splitClampBounds_nonneg_le_one s he hy
  have hxle := splitClampBounds_fst_le_snd s (R.max.x - R.min.x)
  have hyle := splitClampBounds_fst_le_snd s (R.max.y - R.min.y)
  have hxm := clampQ_mem (f + d / (R.max.x - R.min.x)) hxle
  have hym := clampQ_mem (f + d / (R.max.y - R.min.y)) hyle
  refine ⟨⟨hxb.1, hxle, hxb.2⟩, ?_, ⟨hyb.1, hyle, hyb.2⟩, ?_⟩
  · rw [hsplit_fraction_def]
    exact ⟨le_trans hxb.1 hxm.1, le_trans hxm.2 hxb.2⟩
  · rw [vsplit_fraction_def]
    exact ⟨le_trans hyb.1 hym.1, le_trans hym.2 hyb.2⟩

/-- C10 witness: concrete instance with an out-of-range input fraction 3
and drag delta −40 on the rect `[(0,0),(10,20)]`. -/
theorem split_fraction_unit_interval_witness :
    (0 ≤ (styleSmallExtra.hsplit 1 (-40) 3 ⟨⟨0, 0⟩, ⟨10, 20⟩⟩).fraction
      ∧ (styleSmallExtra.hsplit 1 (-40) 3 ⟨⟨0, 0⟩, ⟨10, 20⟩⟩).fraction ≤ 1)
  ∧ (0 ≤ (styleSmallExtra.vsplit 1 (-40) 3 ⟨⟨0, 0⟩, ⟨10, 20⟩⟩).fraction
      ∧ (styleSmallExtra.vsplit 1 (-40) 3 ⟨⟨0, 0⟩, ⟨10, 20⟩⟩).fraction ≤ 1) :=
  ⟨(split_fraction_unit_interval styleSmallExtra 1 (-40) 3 ⟨⟨0, 0⟩, ⟨10, 20⟩⟩
      (by norm_num [styleSmallExtra, setShowCloseButtons]) (by norm_num)
      (by norm_num)).2.1,
   (split_fraction_unit_interval styleSmallExtra 1 (-40) 3 ⟨⟨0, 0⟩, ⟨10, 20⟩⟩
      (by norm_num [styleSmallExtra, setShowCloseButtons]) (by norm_num)
      (by norm_num)).2.2.2⟩

/-- C5: the close-button hit region is registered exactly when
(`active` or the header is hovered) and `show_close_buttons` holds;
whenever no region is registered the returned `close_hovered` and
`close_clicked` are both `false`, and in particular they are `false` for
every pointer state when `show_close_buttons = false`. -/
theorem tab_title_close_region_iff (s : Style) (ui : TabUi) (g : Galley)
    (focused active dragging : Bool) :
    ((s.tab_title ui g focused active dragging).x_region.isSome
        = ((active || ui.hovered) && s.show_close_buttons))
  ∧ ((s.tab_title ui g focused active dragging).x_region = none →
        (s.tab_title ui g focused active dragging).close_hovered = false
      ∧ (s.tab_title ui g focused active dragging).close_clicked = false)
  ∧ (s.show_close_buttons = false →
        (s.tab_title ui g focused active dragging).close_hovered = false
      ∧ (s.tab_title ui g focused active dragging).close_clicked = false) := by
  cases hs : s.show_close_buttons <;> cases active <;> cases hh : ui.hovered <;>
    simp [Style.tab_title, hs, hh]

/-- C6: the desired header size is the shaped text size plus twice the
`(8, 0)` offset with the height then forced to 24; enabling close
buttons adds exactly the close-glyph width plus the text gap
(`galley height / 1.3 + 5`) to the width, making it strictly larger
whenever the galley height is non-negative. -/
theorem tab_title_desired_size_spec (s : Style) (ui : TabUi) (g : Galley)
    (focused active dragging : Bool) (hg : 0 ≤ g.sizeY) :
    ((setShowCloseButtons s false).tab_title ui g focused active
        dragging).desired_size = ⟨g.sizeX + 8.0 * 2.0, 24⟩
  ∧ ((setShowCloseButtons s true).tab_title ui g focused active
        dragging).desired_size
      = ⟨g.sizeX + 8.0 * 2.0 + (g.sizeY / 1.3 + 5.0), 24⟩
  ∧ ((setShowCloseButtons s true).tab_title ui g focused active
        dragging).desired_size.x
      - ((setShowCloseButtons s false).tab_title ui g focused active
          dragging).desired_size.x
      = g.sizeY / 1.3 + 5.0
  ∧ ((setShowCloseButtons s false).tab_title ui g focused active
        dragging).desired_size.x
      < ((setShowCloseButtons s true).tab_title ui g focused active
          dragging).desired_size.x := by
  have hq : 0 ≤ g.sizeY / 1.3 := div_nonneg hg (by norm_num)
  refine ⟨?_, ?_, ?_, ?_⟩
  · norm_num [Style.tab_title, setShowCloseButtons]
  · norm_num [Style.tab_title, setShowCloseButtons]
    ring
  · norm_num [Style.tab_title, setShowCloseButtons]
    ring
  · norm_num [Style.tab_title, setShowCloseButtons]
    linarith

/-- C7 (counterexample): with device ratio 1, header rect
`[(0,0),(10,24)]`, `active = true`, `dragging = false`, the two header
fills drawn are the outline rect widened by 1 on left/right and the
background rect `[(0,1),(10,24)]` — the latter is inset from the header
on top only, not the rect `[(1,1),(9,24)]` that a one-pixel left/right/top
inset of the header would give. -/
theorem tab_title_body_inset_cex :
    ((scenarioStyle.tab_title sampleTabUi sampleGalley false true false).paint.take 2
      = [DrawCmd.rect_filled ⟨⟨0 - 1, 0⟩, ⟨10 + 1, 24⟩⟩
           scenarioStyle.tab_rounding scenarioStyle.tab_outline_color,
         DrawCmd.rect_filled ⟨⟨0, 0 + 1⟩, ⟨10, 24⟩⟩
           scenarioStyle.tab_rounding scenarioStyle.tab_background_color])
  ∧ ¬((scenarioStyle.tab_title sampleTabUi sampleGalley false true false).paint.take 2
      = [DrawCmd.rect_filled ⟨⟨0 - 1, 0⟩, ⟨10 + 1, 24⟩⟩
           scenarioStyle.tab_rounding scenarioStyle.tab_outline_color,
         DrawCmd.rect_filled ⟨⟨0 + 1, 0 + 1⟩, ⟨10 - 1, 24⟩⟩
           scenarioStyle.tab_rounding scenarioStyle.tab_background_color]) := by
  constructor <;>
    norm_num [Style.tab_title, scenarioStyle, sampleTabUi, sampleGalley]

/-- C6 witness: concrete instance with the 20×13 sample galley, where
the enabled width 51 exceeds the disabled width 36. -/
theorem tab_title_desired_size_spec_witness :
    ((setShowCloseButtons scenarioStyle false).tab_title sampleTabUi
        sampleGalley false true false).desired_size.x
      < ((setShowCloseButtons scenarioStyle true).tab_title sampleTabUi
          sampleGalley false true false).desired_size.x :=
  (tab_title_desired_size_spec scenarioStyle sampleTabUi sampleGalley
    false true false (by norm_num [sampleGalley])).2.2.2

/-- C7 (amended): the header-body drawing is decided exactly by
(active, dragging): active and not dragging draws the outline fill
widened by one device pixel on left and right followed by the background
fill inset from that outline rect by one device pixel on left, right and
top (equivalently, the header rect with only its top edge inset by one
device pixel); active and dragging draws only a single 1-logical-unit
stroke around the full header with no fill — the very next painter call
is already the text draw; not active draws no header body at all — the
first painter call is the text draw. -/
theorem tab_title_body_drawing (s : Style) (ui : TabUi) (g : Galley)
    (focused : Bool) :
    ((s.tab_title ui g focused true false).paint.take 2
      = [DrawCmd.rect_filled
           ⟨⟨ui.allocRect.min.x - (ui.pixels_per_point)⁻¹, ui.allocRect.min.y⟩,
            ⟨ui.allocRect.max.x + (ui.pixels_per_point)⁻¹, ui.allocRect.max.y⟩⟩
           s.tab_rounding s.tab_outline_color,
         DrawCmd.rect_filled
           ⟨⟨ui.allocRect.min.x, ui.allocRect.min.y + (ui.pixels_per_point)⁻¹⟩,
            ui.allocRect.max⟩
           s.tab_rounding s.tab_background_color])
  ∧ ((s.tab_title ui g focused true true).paint.take 2
      = [DrawCmd.rect_stroke ui.allocRect s.tab_rounding
           ⟨1.0, s.tab_outline_color⟩,
         DrawCmd.text (ui.allocRect.shrink2 ⟨8.0, 5.0⟩).min
           ((s.tab_title ui g focused true true).override_text_color)])
  ∧ (∀ dragging : Bool, (s.tab_title ui g focused false dragging).paint.head?
      = some (DrawCmd.text (ui.allocRect.shrink2 ⟨8.0, 5.0⟩).min
          ((s.tab_title ui g focused false dragging).override_text_color))) := by
  refine ⟨rfl, rfl, ?_⟩
  intro dragging
  cases dragging <;> rfl

/-- C9: the override color passed to the text draw is `none` exactly when
the shaped label carries an explicit color; otherwise it is the focused
or unfocused tab text color according to `focused`; and the text draw
command with that override is among the emitted painter calls, at the
8×5-inset anchor. -/
theorem tab_title_override_color_spec (s : Style) (ui : TabUi) (g : Galley)
    (focused active dragging : Bool) :
    ((s.tab_title ui g focused active dragging).override_text_color
        = if g.galley_has_color then none
          else if focused then some s.tab_text_color_focused
          else some s.tab_text_color_unfocused)
  ∧ (((s.tab_title ui g focused active dragging).override_text_color = none)
        ↔ g.galley_has_color = true)
  ∧ DrawCmd.text (ui.allocRect.shrink2 ⟨8.0, 5.0⟩).min
        ((s.tab_title ui g focused active dragging).override_text_color)
      ∈ (s.tab_title ui g focused active dragging).paint := by
  refine ⟨rfl, ?_, ?_⟩
  · cases hg : g.galley_has_color <;> cases focused <;>
      simp [Style.tab_title, hg]
  · cases active <;> cases dragging <;>
      simp [Style.tab_title]

/-- C2: for any fraction in `[0,1]` and rect whose extent along the
split axis exceeds `2 × separator_extra` (and non-negative separator
width, positive device ratio), the three regions returned by `hsplit`
— and likewise by `vsplit` — exactly tile the rect: every point of the
rect lies in one of them and their interiors are pairwise disjoint; and
the separator's extent along the split axis differs from
`separator_width` by at most one device pixel (`1 / ppp`) after the
pixel-snapping of both edges. -/
theorem split_regions_tile (s : Style) (ppp d f : ℚ) (R : Rect)
    (hw : 0 ≤ s.separator_width) (hppp : 0 < ppp)
    (_hf0 : 0 ≤ f) (_hf1 : f ≤ 1)
    (_hx : 2 * s.separator_extra < R.width)
    (_hy : 2 * s.separator_extra < R.height) :
    (∀ p : Pos, R.containsP p →
        (s.hsplit ppp d f R).first.containsP p
      ∨ (s.hsplit ppp d f R).separator.containsP p
      ∨ (s.hsplit ppp d f R).second.containsP p)
  ∧ (∀ p : Pos, ¬((s.hsplit ppp d f R).first.interiorP p
      ∧ (s.hsplit ppp d f R).separator.interiorP p))
  ∧ (∀ p : Pos, ¬((s.hsplit ppp d f R).separator.interiorP p
      ∧ (s.hsplit ppp d f R).second.interiorP p))
  ∧ (∀ p : Pos, ¬((s.hsplit ppp d f R).first.interiorP p
      ∧ (s.hsplit ppp d f R).second.interiorP p))
  ∧ |(s.hsplit ppp d f R).separator.width - s.separator_width| ≤ 1 / ppp
  ∧ (∀ p : Pos, R.containsP p →
        (s.vsplit ppp d f R).first.containsP p
      ∨ (s.vsplit ppp d f R).separator.containsP p
      ∨ (s.vsplit ppp d f R).second.containsP p)
  ∧ (∀ p : Pos, ¬((s.vsplit ppp d f R).first.interiorP p
      ∧ (s.vsplit ppp d f R).separator.interiorP p))
  ∧ (∀ p : Pos, ¬((s.vsplit ppp d f R).separator.interiorP p
      ∧ (s.vsplit ppp d f R).second.interiorP p))
  ∧ (∀ p : Pos, ¬((s.vsplit ppp d f R).first.interiorP p
      ∧ (s.vsplit ppp d f R).second.interiorP p))
  ∧ |(s.vsplit ppp d f R).separator.height - s.separator_width| ≤ 1 / ppp := by
  obtain ⟨a1, a2, a3, a4, a5⟩ := hsplit_tiling_core s ppp d f R hw hppp
  obtain ⟨b1, b2, b3, b4, b5⟩ := vsplit_tiling_core s ppp d f R hw hppp
  exact ⟨a1, a2, a3, a4, a5, b1, b2, b3, b4, b5⟩

/-- C2 witness: on the rect `[(0,0),(10,10)]` with `separator_extra = 1`,
`separator_width = 1`, device ratio 1, fraction 1/2 and zero drag, the
point `(1, 1)` of the rect lies in one of `hsplit`'s three regions. -/
theorem split_regions_tile_witness :
    (styleSmallExtra.hsplit 1 0 (1/2) ⟨⟨0, 0⟩, ⟨10, 10⟩⟩).first.containsP ⟨1, 1⟩
  ∨ (styleSmallExtra.hsplit 1 0 (1/2)
      ⟨⟨0, 0⟩, ⟨10, 10⟩⟩).separator.containsP ⟨1, 1⟩
  ∨ (styleSmallExtra.hsplit 1 0 (1/2) ⟨⟨0, 0⟩, ⟨10, 10⟩⟩).second.containsP ⟨1, 1⟩ :=
  (split_regions_tile styleSmallExtra 1 0 (1/2) ⟨⟨0, 0⟩, ⟨10, 10⟩⟩
      (by norm_num [styleSmallExtra, setShowCloseButtons]) (by norm_num)
      (by norm_num) (by norm_num)
      (by norm_num [styleSmallExtra, setShowCloseButtons, Rect.width])
      (by norm_num [styleSmallExtra, setShowCloseButtons, Rect.height])).1
    ⟨1, 1⟩ (by norm_num [Rect.containsP])

end EguiDock
